import Mathlib

/-!
Verification of `ec.amqp` (entrecode/ec.amqp, file `amqp.js`) against its
natural-language specification.

The JavaScript source is shallowly embedded: each function relevant to a
claim is translated into a Lean definition over explicit state, and the
effects the function performs (close calls, channel operations, logging,
scheduled timers, process exits) are reified as values so that theorems can
speak about them.  JavaScript runs callbacks on a single-threaded event
loop, so a synchronous code span (no `await` inside it) executes atomically;
sequential composition of such spans models every possible interleaving.
-/

/-! ## ShutdownCoordinator: `gracefulShutdown` (amqp.js lines 247-255)

```js
async function gracefulShutdown() {
  if (shuttingDown) { return Promise.resolve(); }
  shuttingDown = true;
  return connectionManager.close().catch((err) => {
    console.error('Error during graceful shutdown:', err);
  });
}
```

The check of `shuttingDown` and the assignment `shuttingDown = true` happen
in one synchronous span (there is no `await` between them), so no other
invocation can run in between: any interleaving of K invocations is some
sequential order of them.  The state is the module-global `shuttingDown`
flag; the outcome records whether `connectionManager.close()` was invoked,
whether the returned promise resolves (it always does: a rejection of
`close()` is swallowed by `.catch`), and what error, if any, was logged. -/

structure GSOutcome where
  closeCalled : Bool
  resolvesOk : Bool
  loggedError : Option String
  deriving DecidableEq, Repr

/-- One invocation of `gracefulShutdown`, given the current value of the
`shuttingDown` flag and the result the underlying
`connectionManager.close()` would produce if invoked.  Returns the new flag
value and the observable outcome of this invocation. -/
def gracefulShutdown (shuttingDown : Bool) (closeResult : Except String Unit) :
    Bool × GSOutcome :=
  if shuttingDown then
    (true, ⟨false, true, none⟩)
  else
    (true,
      match closeResult with
      | Except.ok _ => ⟨true, true, none⟩
      | Except.error e => ⟨true, true, some e⟩)

/-- K sequential invocations of `gracefulShutdown` (one per entry of
`closeResults`), threading the `shuttingDown` flag; returns the final flag
and the total number of invocations that actually called
`connectionManager.close()`. -/
def runShutdowns (shuttingDown : Bool) : List (Except String Unit) → Bool × Nat
  | [] => (shuttingDown, 0)
  | r :: rs =>
    let step := gracefulShutdown shuttingDown r
    let rest := runShutdowns step.1 rs
    (rest.1, (cond step.2.closeCalled 1 0) + rest.2)

/-! ## ConnectionSupervisor: `isReachable` (amqp.js lines 90-106)

```js
async function isReachable() {
  if (shuttingDown) { console.info('amqp is shutting down'); return false; }
  if (connectionManager.isConnected()) { return true; }
  if (neverConnected) {
    await new Promise((resolve) => setTimeout(resolve, 2000));
    if (connectionManager.isConnected()) { return true; }
    throw new Error('amqp did not connect yet');
  }
  throw new Error('amqp is not connected');
}
```

The state is the pair of module globals (`shuttingDown`, `neverConnected`)
together with two snapshots of `connectionManager.isConnected()`: its value
at the first check and its value after the 2000ms grace wait (the second
snapshot is consulted at most once, and only on the never-connected path).
The result is `Except` (a thrown `Error` is `Except.error` carrying its
message) paired with the total milliseconds waited. -/

structure ReachState where
  shuttingDown : Bool
  neverConnected : Bool
  connectedNow : Bool
  connectedAfterGrace : Bool
  deriving DecidableEq, Repr

def isReachable (st : ReachState) : Except String Bool × Nat :=
  if st.shuttingDown then
    (Except.ok false, 0)
  else if st.connectedNow then
    (Except.ok true, 0)
  else if st.neverConnected then
    (if st.connectedAfterGrace then Except.ok true
     else Except.error "amqp did not connect yet", 2000)
  else
    (Except.error "amqp is not connected", 0)

/-! ## Process triggers (amqp.js lines 257-288)

```js
process.on('SIGHUP',  async () => { ... await gracefulShutdown(); });
process.on('SIGINT',  async () => { ... await gracefulShutdown(); });
process.on('SIGTERM', async () => { ... await gracefulShutdown(); });
process.on('uncaughtException', async (err) => { ... await gracefulShutdown(); process.exit(1); });
process.on('unhandledRejection', async () => { ... await gracefulShutdown(); process.exit(1); });
process.on('beforeExit', async (code) => { ... await gracefulShutdown(); });
```

Each handler is embedded as the ordered list of process-level events it
performs; `await` guarantees the shutdown call completes before any event
that follows it in the list. -/

inductive Trigger where
  | sighup | sigint | sigterm | uncaughtException | unhandledRejection | beforeExit
  deriving DecidableEq, Repr

inductive ProcEvent where
  | shutdownCall
  | exitCall (code : Nat)
  deriving DecidableEq, Repr

def handlerEvents : Trigger → List ProcEvent
  | Trigger.sighup => [ProcEvent.shutdownCall]
  | Trigger.sigint => [ProcEvent.shutdownCall]
  | Trigger.sigterm => [ProcEvent.shutdownCall]
  | Trigger.uncaughtException => [ProcEvent.shutdownCall, ProcEvent.exitCall 1]
  | Trigger.unhandledRejection => [ProcEvent.shutdownCall, ProcEvent.exitCall 1]
  | Trigger.beforeExit => [ProcEvent.shutdownCall]

/-- A trigger is a termination signal or the empty-event-loop notification
(as opposed to a fatal-error trigger). -/
def Trigger.isTermination : Trigger → Bool
  | Trigger.sighup => true
  | Trigger.sigint => true
  | Trigger.sigterm => true
  | Trigger.beforeExit => true
  | Trigger.uncaughtException => false
  | Trigger.unhandledRejection => false

/-! ### Theorems for the shutdown coordinator and reachability -/

/-- C1: invoking `gracefulShutdown()` K ≥ 1 times (sequentially; and since
the read-then-set of the flag is one synchronous span of the event loop,
every interleaving is such a sequential order) sets the `shuttingDown` flag
and results in exactly one call to `connectionManager.close()`, whatever
each call's `close()` would have returned; and every invocation that starts
with the flag already set calls nothing, resolves immediately and leaves
the flag set. -/
theorem gracefulShutdown_close_called_once
    (closeResults : List (Except String Unit)) (hK : 1 ≤ closeResults.length) :
    runShutdowns false closeResults = (true, 1) ∧
      ∀ r, gracefulShutdown true r = (true, ⟨false, true, none⟩) := by
  constructor
  · match closeResults, hK with
    | r :: rs, _ =>
      have hset : ∀ rs' : List (Except String Unit), runShutdowns true rs' = (true, 0) := by
        intro rs'
        induction rs' with
        | nil => rfl
        | cons r' rs'' ih =>
          simp [runShutdowns, gracefulShutdown, ih]
      cases r with
      | ok u => simp [runShutdowns, gracefulShutdown, hset]
      | error e => simp [runShutdowns, gracefulShutdown, hset]
  · intro r
    rfl

/-- Witness for C1 at a concrete list of three invocations (the first
`close()` succeeding). -/
theorem gracefulShutdown_close_called_once_witness :
    runShutdowns false [Except.ok (), Except.error "boom", Except.ok ()] = (true, 1) ∧
      ∀ r, gracefulShutdown true r = (true, ⟨false, true, none⟩) :=
  gracefulShutdown_close_called_once [Except.ok (), Except.error "boom", Except.ok ()]
    (by decide)

/-- C6: when `connectionManager.close()` rejects during `gracefulShutdown`,
the error is caught and logged and the promise returned by
`gracefulShutdown` still resolves successfully; `close()` was indeed
invoked and the flag is set. -/
theorem gracefulShutdown_close_failure_swallowed (e : String) :
    gracefulShutdown false (Except.error e) = (true, ⟨true, true, some e⟩) := by
  rfl

/-- C3: `isReachable` while not connected and not shutting down: on the
never-connected path it waits 2000ms and rechecks exactly once, returning
`true` when the connection completed within the window and otherwise
throwing "amqp did not connect yet"; on the previously-connected path it
throws "amqp is not connected" immediately, with no wait. -/
theorem isReachable_not_connected (st : ReachState)
    (hsd : st.shuttingDown = false) (hc : st.connectedNow = false) :
    (st.neverConnected = true →
       isReachable st =
         (if st.connectedAfterGrace then Except.ok true
          else Except.error "amqp did not connect yet", 2000)) ∧
    (st.neverConnected = false →
       isReachable st = (Except.error "amqp is not connected", 0)) := by
  constructor
  · intro hnv
    simp [isReachable, hsd, hc, hnv]
  · intro hnv
    simp [isReachable, hsd, hc, hnv]

/-- Witness for C3: a startup state that connects within the grace window,
and a previously-connected state that is now lost. -/
theorem isReachable_not_connected_witness :
    (isReachable ⟨false, true, false, true⟩ = (Except.ok true, 2000)) ∧
    (isReachable ⟨false, false, false, false⟩ = (Except.error "amqp is not connected", 0)) := by
  refine ⟨?_, ?_⟩
  · have h := (isReachable_not_connected ⟨false, true, false, true⟩ rfl rfl).1 rfl
    simpa using h
  · exact (isReachable_not_connected ⟨false, false, false, false⟩ rfl rfl).2 rfl

/-- C5: once the `shuttingDown` flag is set, `isReachable` returns `false`
normally (no thrown error) and waits nothing, whatever the connection
state. -/
theorem isReachable_shutdown (nc cn cg : Bool) :
    isReachable ⟨true, nc, cn, cg⟩ = (Except.ok false, 0) := by
  rfl

/-- C7: each termination-signal trigger and the `beforeExit` trigger calls
`gracefulShutdown()` and never forces a process exit, while each
fatal-error trigger calls `gracefulShutdown()` and then (the `await`
completing first, hence the list order) forces `process.exit` with the
non-zero status 1. -/
theorem handlerEvents_spec :
    (∀ t : Trigger, t.isTermination = true →
       handlerEvents t = [ProcEvent.shutdownCall]) ∧
    (∀ t : Trigger, t.isTermination = false →
       handlerEvents t = [ProcEvent.shutdownCall, ProcEvent.exitCall 1]) ∧
    (1 : Nat) ≠ 0 := by
  refine ⟨?_, ?_, one_ne_zero⟩
  · intro t ht
    cases t <;> first | rfl | exact absurd ht (by decide)
  · intro t ht
    cases t <;> first | rfl | exact absurd ht (by decide)

/-! ## DeliveryContext: the `workerQueue` consume callback (amqp.js lines 121-154)

```js
channel.consume(queueName, async (message) => {
  ...
  const ack = () => channelWrapper.ack(message);
  const nack = (timeout = 10000, requeue = false, redirectQueue) =>
    setTimeout(async () => {
      if (redirectQueue) {
        await channel.assertQueue(redirectQueue, { durable: true,
          arguments: { 'x-queue-type': 'quorum' } });
        await channelWrapper.sendToQueue(redirectQueue, message.content, message.properties);
      }
      return channelWrapper.nack(message, false, requeue);
    }, timeout);
  try {
    await handler(event, properties, { ack, nack });
  } catch (err) { console.error(err); nack(10000, true); }
}, { exclusive: false });
```

A message carries its payload bytes and its broker properties; both are
kept abstract (`content`, `properties`) since the nack/redirect path only
forwards them.  Channel-level operations are reified as `ChanOp`; the
`Option Bool` arguments of `ChanOp.nack` model the `allUpTo`/`requeue`
arguments of `channelWrapper.nack`, `none` standing for a JavaScript
argument left `undefined` (so that the broker library's own default
applies). -/

structure Message where
  content : String
  properties : String
  deriving DecidableEq, Repr

inductive ChanOp where
  | assertQueue (name : String) (durable : Bool) (quorum : Bool)
  | sendToQueue (queue : String) (content : String) (properties : String)
  | nack (allUpTo : Option Bool) (requeue : Option Bool)
  | ack
  deriving DecidableEq, Repr

namespace WorkerQueue

/-- The `nack` closure handed to a `workerQueue` handler: `nack(timeout,
requeue, redirectQueue)` schedules, after `timeout` ms, the listed channel
operations (redirect-queue declaration and copy first when a redirect queue
is given, then the negative acknowledgment
`channelWrapper.nack(message, false, requeue)`).  Result: (delay, scheduled
operations).  The source defaults are `timeout = 10000`,
`requeue = false`. -/
def nack (m : Message) (timeout : Nat := 10000) (requeue : Bool := false)
    (redirectQueue : Option String := none) : Nat × List ChanOp :=
  (timeout,
    (match redirectQueue with
     | some q => [ChanOp.assertQueue q true true,
                  ChanOp.sendToQueue q m.content m.properties]
     | none => []) ++ [ChanOp.nack (some false) (some requeue)])

/-- One disposition call a `workerQueue` handler (or the delivery boundary)
can make on its `DeliveryContext`. -/
inductive Disp where
  | ackCall
  | nackCall (timeout : Nat) (requeue : Bool) (redirectQueue : Option String)
  deriving DecidableEq, Repr

/-- The try/catch delivery boundary of the `workerQueue` consume callback.
`handlerCalls` are the disposition calls the handler itself made before
finishing; `throws` tells whether the handler threw (or rejected).  Returns
the full sequence of disposition calls made during the callback and whether
the callback completed without propagating an error (it always does: the
catch branch swallows the handler's error after logging it and calling
`nack(10000, true)`). -/
def consumeBoundary (handlerCalls : List Disp) (throws : Bool) :
    List Disp × Bool :=
  if throws then (handlerCalls ++ [Disp.nackCall 10000 true none], true)
  else (handlerCalls, true)

end WorkerQueue

namespace Subscribe

/-- The `nack` closure handed to a `subscribe` handler (amqp.js lines
190-193):

```js
const nack = (timeout = 10000) =>
  setTimeout(() => { channelWrapper.nack(message); }, timeout);
```

Its parameter list is `timeout` alone, so a JavaScript call site may pass
further arguments (a requeue flag, a redirect queue) but the closure never
reads them: they are bound to nothing.  `extraRequeue`/`extraRedirect`
model such extra arguments at a call site.  After the delay the single
scheduled operation is `channelWrapper.nack(message)` with `allUpTo` and
`requeue` both left `undefined`, i.e. the underlying channel's defaults. -/
def nack (timeout : Nat := 10000) : Nat × List ChanOp :=
  (timeout, [ChanOp.nack none none])

/-- A call site invoking `subscribe`'s `nack` with extra arguments: only
`timeout` reaches the closure. -/
def nackCall (timeout : Nat) (extraRequeue : Option Bool)
    (extraRedirect : Option String) : Nat × List ChanOp :=
  nack timeout

end Subscribe

/-! ## `publishChannel` message envelope (amqp.js lines 224-245)

```js
return channelWrapper.publish(exchange, routingKey,
  Buffer.from(JSON.stringify(content)),
  Object.assign(
    { persistent: true, contentType: 'application/json', messageId: uuid(),
      type: 'event', appId: 'unknown', timestamp: new Date().getTime() },
    { type, appId: appID },
    options));
```

JavaScript objects are embedded as ordered key/value lists; `JsValue.undef`
is the JavaScript value `undefined`.  `Object.assign` copies every own
enumerable property of each source onto the target, later sources winning —
including properties whose value is `undefined`: the object literal
`{ type, appId: appID }` always has both keys, holding `undefined` when the
positional arguments `type` / `appID` were not supplied by the caller. -/

inductive JsValue where
  | undef
  | bool (b : Bool)
  | str (s : String)
  | num (n : Nat)
  deriving DecidableEq, Repr

abbrev JsObject := List (String × JsValue)

/-- Assigning one property: overwrite in place when the key exists,
append otherwise. -/
def setProp (o : JsObject) (k : String) (v : JsValue) : JsObject :=
  if o.any (fun p => p.1 = k) then
    o.map (fun p => if p.1 = k then (k, v) else p)
  else
    o ++ [(k, v)]

/-- `Object.assign(target, source)` for one source object. -/
def objAssign (target source : JsObject) : JsObject :=
  source.foldl (fun acc p => setProp acc p.1 p.2) target

/-- Property lookup; `none` means the key is absent (distinct from the key
being present with value `undefined`). -/
def getProp (o : JsObject) (k : String) : Option JsValue :=
  (o.find? (fun p => p.1 = k)).map (fun p => p.2)

/-- The `properties` object built by the `publish` function returned from
`publishChannel`, for a call `publish(routingKey, content, type, appID,
options)`.  `mid` is the fresh `uuid()` and `ts` the value of
`new Date().getTime()`; `type`/`appID` are the positional arguments as
JavaScript values (`JsValue.undef` when omitted) and `options` the
caller-supplied options object (empty when omitted). -/
def publishOptions (mid : String) (ts : Nat) (type appID : JsValue)
    (options : JsObject) : JsObject :=
  objAssign
    (objAssign
      [("persistent", JsValue.bool true),
       ("contentType", JsValue.str "application/json"),
       ("messageId", JsValue.str mid),
       ("type", JsValue.str "event"),
       ("appId", JsValue.str "unknown"),
       ("timestamp", JsValue.num ts)]
      [("type", type), ("appId", appID)])
    options

/-- The message body built by `publish`: the UTF-8 bytes of the JSON
serialization of the content (`Buffer.from(JSON.stringify(content))`);
`contentJson` stands for the `JSON.stringify` output. -/
def publishBody (contentJson : String) : ByteArray :=
  contentJson.toUTF8

/-! ### Theorems for delivery contexts and publishing -/

/-- C2: when a `workerQueue` handler throws (or rejects), the delivery
boundary catches the error and performs exactly one further disposition:
`nack(10000, true)` — a nack scheduled with delay 10000ms and
`requeue = true` (and no redirect queue), whose scheduled channel operation
is `channelWrapper.nack(message, false, true)`; the boundary never invokes
`ack`, and the consume callback completes without propagating the error. -/
theorem workerQueue_handler_throw_nacks (handlerCalls : List WorkerQueue.Disp) :
    WorkerQueue.consumeBoundary handlerCalls true =
      (handlerCalls ++ [WorkerQueue.Disp.nackCall 10000 true none], true) ∧
    WorkerQueue.consumeBoundary [] true =
      ([WorkerQueue.Disp.nackCall 10000 true none], true) ∧
    WorkerQueue.Disp.ackCall ∉ (WorkerQueue.consumeBoundary [] true).1 ∧
    ∀ m : Message, WorkerQueue.nack m 10000 true none =
      (10000, [ChanOp.nack (some false) (some true)]) := by
  refine ⟨rfl, rfl, by decide, fun m => rfl⟩

/-- C4: `workerQueue`'s `nack(delayMs, requeue, redirectQueue)` schedules,
after `delayMs`: with a redirect queue given, its durable declaration, the
copy of the original payload and properties onto it, then the negative
acknowledgment of the original with the given requeue flag; with no
redirect queue, only the negative acknowledgment with the given requeue
flag.  In particular `nack(5000, false, "dlq")` declares "dlq" durable,
copies the message onto it and nacks with `requeue = false`. -/
theorem workerQueue_nack_redirect (m : Message) (delayMs : Nat) (requeue : Bool)
    (q : String) :
    WorkerQueue.nack m delayMs requeue (some q) =
      (delayMs, [ChanOp.assertQueue q true true,
                 ChanOp.sendToQueue q m.content m.properties,
                 ChanOp.nack (some false) (some requeue)]) ∧
    WorkerQueue.nack m delayMs requeue none =
      (delayMs, [ChanOp.nack (some false) (some requeue)]) ∧
    WorkerQueue.nack m 5000 false (some "dlq") =
      (5000, [ChanOp.assertQueue "dlq" true true,
              ChanOp.sendToQueue "dlq" m.content m.properties,
              ChanOp.nack (some false) (some false)]) := by
  exact ⟨rfl, rfl, rfl⟩

/-- C10: the `nack` handle handed to `subscribe` consumers accepts only the
delay: extra requeue/redirect arguments a caller passes never reach the
closure, and after the delay the single scheduled operation is
`channelWrapper.nack(message)` with `allUpTo` and `requeue` left to the
underlying channel's defaults — no redirect-queue declaration, no copy, no
explicit requeue flag, unlike `WorkerQueue.nack`. -/
theorem subscribe_nack_ignores_extra_args (delayMs : Nat)
    (extraRequeue : Option Bool) (extraRedirect : Option String) :
    Subscribe.nackCall delayMs extraRequeue extraRedirect =
      (delayMs, [ChanOp.nack none none]) ∧
    (Subscribe.nackCall delayMs extraRequeue extraRedirect).2 =
      (Subscribe.nack delayMs).2 ∧
    ∀ requeue : Bool,
      ChanOp.nack (some false) (some requeue) ∉
        (Subscribe.nackCall delayMs extraRequeue extraRedirect).2 := by
  refine ⟨rfl, rfl, fun requeue => by simp [Subscribe.nackCall, Subscribe.nack]⟩

/-- C8 (counter-evidence): for `publish(routingKey, content)` with the
positional `type`/`appID` and the `options` argument all omitted, the
object literal `{ type, appId: appID }` holds `undefined` in both keys and
`Object.assign` copies those `undefined` values over the defaults `'event'`
and `'unknown'`: the published properties carry `type = undefined` and
`appId = undefined`, not the documented defaults — while the other
defaults (`persistent`, `contentType`, `messageId`, `timestamp`) do apply,
and positional arguments, when supplied, do override. -/
theorem publishOptions_undef_clobbers_defaults :
    getProp (publishOptions "mid-1" 1760140800000 JsValue.undef JsValue.undef [])
        "type" = some JsValue.undef ∧
    getProp (publishOptions "mid-1" 1760140800000 JsValue.undef JsValue.undef [])
        "appId" = some JsValue.undef ∧
    getProp (publishOptions "mid-1" 1760140800000 JsValue.undef JsValue.undef [])
        "type" ≠ some (JsValue.str "event") ∧
    getProp (publishOptions "mid-1" 1760140800000 JsValue.undef JsValue.undef [])
        "appId" ≠ some (JsValue.str "unknown") ∧
    getProp (publishOptions "mid-1" 1760140800000 JsValue.undef JsValue.undef [])
        "persistent" = some (JsValue.bool true) ∧
    getProp (publishOptions "mid-1" 1760140800000 JsValue.undef JsValue.undef [])
        "contentType" = some (JsValue.str "application/json") ∧
    getProp (publishOptions "mid-1" 1760140800000 JsValue.undef JsValue.undef [])
        "messageId" = some (JsValue.str "mid-1") ∧
    getProp (publishOptions "mid-1" 1760140800000 JsValue.undef JsValue.undef [])
        "timestamp" = some (JsValue.num 1760140800000) ∧
    getProp (publishOptions "mid-1" 1760140800000 (JsValue.str "t") (JsValue.str "a") [])
        "type" = some (JsValue.str "t") ∧
    getProp (publishOptions "mid-1" 1760140800000 (JsValue.str "t") (JsValue.str "a") [])
        "appId" = some (JsValue.str "a") := by
  decide

/-! ## HostSelector: `shuffleArray` (amqp.js lines 16-22)

```js
function shuffleArray(array) {
  for (let i = array.length - 1; i > 0; i--) {
    const j = Math.floor(Math.random() * (i + 1));
    [array[i], array[j]] = [array[j], array[i]];
  }
  return array;
}
```

`rand i` embeds `Math.floor(Math.random() * (i + 1))`, the random index
drawn at loop position `i`; since `Math.random()` ranges over `[0, 1)`,
`rand i ≤ i` always holds in the source.  The destructuring swap of
`array[i]` and `array[j]` is `listSwap`: read both cells, write each into
the other (out-of-range indices, which the source never produces, leave the
list unchanged). -/

def listSwap {α : Type*} (l : List α) (i j : Nat) : List α :=
  match l[i]?, l[j]? with
  | some x, some y => (l.set i y).set j x
  | _, _ => l

/-- The countdown loop of `shuffleArray`: one iteration per index `i`,
from `array.length - 1` down to `1`. -/
def shuffleLoop {α : Type*} (rand : Nat → Nat) : Nat → List α → List α
  | 0, l => l
  | i + 1, l => shuffleLoop rand i (listSwap l (i + 1) (rand (i + 1)))

def shuffleArray {α : Type*} (rand : Nat → Nat) (l : List α) : List α :=
  shuffleLoop rand (l.length - 1) l

theorem listSwap_length {α : Type*} (l : List α) (i j : Nat) :
    (listSwap l i j).length = l.length := by
  unfold listSwap
  cases h1 : l[i]? <;> cases h2 : l[j]? <;> simp

/-- Moving the `k`-th element of a list to the front while writing `a` into
its cell is, up to permutation, pushing `a` on the front. -/
theorem getElem_cons_set_perm {α : Type*} (l : List α) (a : α) :
    ∀ (k : Nat) (hk : k < l.length), (l[k] :: l.set k a).Perm (a :: l) := by
  induction l with
  | nil => intro k hk; exact absurd hk (by simp)
  | cons b m ih =>
    intro k hk
    cases k with
    | zero => exact List.Perm.swap a b m
    | succ k' =>
      have hk' : k' < m.length := by simpa using hk
      have hstep : ((b :: m)[k' + 1] :: (b :: m).set (k' + 1) a) =
          m[k'] :: b :: m.set k' a := by simp
      rw [hstep]
      refine List.Perm.trans (List.Perm.swap b _ _) ?_
      exact List.Perm.trans ((ih k' hk').cons b) (List.Perm.swap a b m)

/-- Swapping two in-range cells of a list permutes it. -/
theorem set_swap_perm {α : Type*} :
    ∀ (l : List α) (i j : Nat) (hi : i < l.length) (hj : j < l.length),
      ((l.set i l[j]).set j l[i]).Perm l := by
  intro l
  induction l with
  | nil => intro i j hi _; exact absurd hi (by simp)
  | cons b m ih =>
    intro i j hi hj
    cases i with
    | zero =>
      cases j with
      | zero => simp
      | succ j' =>
        have hj' : j' < m.length := by simpa using hj
        have : ((b :: m).set 0 ((b :: m)[j' + 1])).set (j' + 1) ((b :: m)[0]) =
            m[j'] :: m.set j' b := by simp
        rw [this]
        exact getElem_cons_set_perm m b j' hj'
    | succ i' =>
      have hi' : i' < m.length := by simpa using hi
      cases j with
      | zero =>
        have : ((b :: m).set (i' + 1) ((b :: m)[0])).set 0 ((b :: m)[i' + 1]) =
            m[i'] :: m.set i' b := by simp
        rw [this]
        exact getElem_cons_set_perm m b i' hi'
      | succ j' =>
        have hj' : j' < m.length := by simpa using hj
        have : ((b :: m).set (i' + 1) ((b :: m)[j' + 1])).set (j' + 1) ((b :: m)[i' + 1]) =
            b :: (m.set i' (m[j'])).set j' (m[i']) := by simp
        rw [this]
        exact (ih i' j' hi' hj').cons b

theorem listSwap_perm {α : Type*} (l : List α) (i j : Nat) :
    (listSwap l i j).Perm l := by
  unfold listSwap
  cases h1 : l[i]? with
  | none => exact List.Perm.refl l
  | some x =>
    cases h2 : l[j]? with
    | none => exact List.Perm.refl l
    | some y =>
      obtain ⟨hi, hx⟩ := List.getElem?_eq_some.mp h1
      obtain ⟨hj, hy⟩ := List.getElem?_eq_some.mp h2
      rw [← hx, ← hy]
      exact set_swap_perm l i j hi hj

/-- After the swap, cell `i` holds what cell `j` held. -/
theorem listSwap_getElem?_left {α : Type*} (l : List α) (i j : Nat)
    (hi : i < l.length) (hj : j < l.length) :
    (listSwap l i j)[i]? = l[j]? := by
  unfold listSwap
  rw [List.getElem?_eq_getElem hi, List.getElem?_eq_getElem hj]
  by_cases hij : i = j
  · subst hij
    simp [List.set_set, List.getElem?_set_self, hi]
  · simp only [List.getElem?_set_ne (fun h => hij h.symm)]
    rw [List.getElem?_set_self hi]

/-- A swap whose two indices lie in the prefix acts on the prefix alone. -/
theorem listSwap_append {α : Type*} (p s : List α) (i j : Nat)
    (hi : i < p.length) (hj : j < p.length) :
    listSwap (p ++ s) i j = listSwap p i j ++ s := by
  unfold listSwap
  rw [List.getElem?_append_left hi, List.getElem?_append_left hj,
    List.getElem?_eq_getElem hi, List.getElem?_eq_getElem hj]
  simp only [List.set_append_left, List.length_set, hi, hj]

theorem shuffleLoop_length {α : Type*} (rand : Nat → Nat) :
    ∀ (i : Nat) (l : List α), (shuffleLoop rand i l).length = l.length := by
  intro i
  induction i with
  | zero => intro l; rfl
  | succ i ih =>
    intro l
    rw [shuffleLoop, ih, listSwap_length]

/-- The shuffle loop permutes its input, whatever the random draws are. -/
theorem shuffleLoop_perm {α : Type*} (rand : Nat → Nat) :
    ∀ (i : Nat) (l : List α), (shuffleLoop rand i l).Perm l := by
  intro i
  induction i with
  | zero => intro l; exact List.Perm.refl l
  | succ i ih =>
    intro l
    exact List.Perm.trans (ih (listSwap l (i + 1) (rand (i + 1))))
      (listSwap_perm l (i + 1) (rand (i + 1)))

/-- The loop reads `rand` only at indices up to its counter. -/
theorem shuffleLoop_congr {α : Type*} (r₁ r₂ : Nat → Nat) :
    ∀ (i : Nat) (l : List α), (∀ k, k ≤ i → r₁ k = r₂ k) →
      shuffleLoop r₁ i l = shuffleLoop r₂ i l := by
  intro i
  induction i with
  | zero => intro l _; rfl
  | succ i ih =>
    intro l h
    rw [shuffleLoop, shuffleLoop, h (i + 1) le_rfl]
    exact ih _ (fun k hk => h k (Nat.le_succ_of_le hk))

/-- With in-bound random draws, a loop whose counter stays inside the
prefix never touches the suffix. -/
theorem shuffleLoop_append {α : Type*} (rand : Nat → Nat)
    (hr : ∀ k, rand k ≤ k) :
    ∀ (i : Nat) (p s : List α), i < p.length →
      shuffleLoop rand i (p ++ s) = shuffleLoop rand i p ++ s := by
  intro i
  induction i with
  | zero => intro p s _; rfl
  | succ i ih =>
    intro p s hi
    have hj : rand (i + 1) < p.length := lt_of_le_of_lt (hr (i + 1)) hi
    rw [shuffleLoop, shuffleLoop, listSwap_append p s (i + 1) (rand (i + 1)) hi hj]
    exact ih _ s (by rw [listSwap_length]; exact Nat.lt_of_succ_lt hi)

/-- A list of length `i + 1` is its first `i` elements followed by its
last. -/
theorem take_append_last {α : Type*} (l : List α) (i : Nat)
    (hlen : l.length = i + 1) :
    l = l.take i ++ [l[i]] := by
  have h := List.take_concat_get l i (by omega)
  rw [List.concat_eq_append] at h
  have h2 : List.take (i + 1) l = l := by
    rw [← hlen]; exact List.take_length l
  rw [h, h2]

/-- Fisher–Yates reachability: every permutation of the input is produced
by some sequence of in-bound random draws. -/
theorem shuffleLoop_reaches {α : Type*} :
    ∀ (n : Nat) (l t : List α), l.length = n → t.Perm l →
      ∃ rand : Nat → Nat, (∀ k, rand k ≤ k) ∧
        shuffleLoop rand (l.length - 1) l = t := by
  intro n
  induction n with
  | zero =>
    intro l t hlen hperm
    have hl : l = [] := List.length_eq_zero.mp hlen
    refine ⟨fun _ => 0, fun k => Nat.zero_le k, ?_⟩
    subst hl
    rw [List.Perm.eq_nil hperm]
    rfl
  | succ m ih =>
    intro l t hlen hperm
    cases m with
    | zero =>
      obtain ⟨a, ha⟩ := List.length_eq_one.mp hlen
      refine ⟨fun _ => 0, fun k => Nat.zero_le k, ?_⟩
      subst ha
      rw [List.perm_singleton.mp hperm]
      rfl
    | succ m' =>
      have htlen : t.length = m' + 2 := hperm.length_eq.trans hlen
      have hm1t : m' + 1 < t.length := by omega
      have hm1l : m' + 1 < l.length := by omega
      -- the element the shuffled result must end with
      have hxl : t[m' + 1] ∈ l := (hperm.mem_iff).mp (List.getElem_mem hm1t)
      obtain ⟨j, hj, hlj⟩ := List.mem_iff_getElem.mp hxl
      -- first iteration: swap the last cell with cell j
      have hl2len : (listSwap l (m' + 1) j).length = m' + 2 := by
        rw [listSwap_length]; exact hlen
      have hl2last : (listSwap l (m' + 1) j)[m' + 1] = t[m' + 1] := by
        have hq : (listSwap l (m' + 1) j)[m' + 1]? = l[j]? :=
          listSwap_getElem?_left l (m' + 1) j hm1l hj
        rw [List.getElem?_eq_getElem (hl2len ▸ (by omega : m' + 1 < m' + 2)),
          List.getElem?_eq_getElem hj] at hq
        rw [Option.some_inj.mp hq, hlj]
      have hl2perm : (listSwap l (m' + 1) j).Perm l := listSwap_perm l (m' + 1) j
      -- peel the (now fixed) last element off both sides
      have hl2dec : listSwap l (m' + 1) j =
          (listSwap l (m' + 1) j).take (m' + 1) ++ [t[m' + 1]] := by
        have h := take_append_last (listSwap l (m' + 1) j) (m' + 1) hl2len
        rw [hl2last] at h
        exact h
      have htdec : t = t.take (m' + 1) ++ [t[m' + 1]] :=
        take_append_last t (m' + 1) htlen
      have hprefixperm : (t.take (m' + 1)).Perm ((listSwap l (m' + 1) j).take (m' + 1)) := by
        have h1 : t.Perm (listSwap l (m' + 1) j) := hperm.trans hl2perm.symm
        rw [htdec, hl2dec] at h1
        have h2 : ((t[m' + 1]) :: t.take (m' + 1)).Perm
            ((t[m' + 1]) :: (listSwap l (m' + 1) j).take (m' + 1)) :=
          ((List.perm_append_singleton _ _).symm.trans h1).trans
            (List.perm_append_singleton _ _)
        exact h2.cons_inv
      have hplen : ((listSwap l (m' + 1) j).take (m' + 1)).length = m' + 1 := by
        rw [List.length_take, hl2len]; omega
      obtain ⟨rand', hr', heq'⟩ :=
        ih ((listSwap l (m' + 1) j).take (m' + 1)) (t.take (m' + 1)) hplen hprefixperm
      rw [hplen] at heq'
      -- combine the first draw with the draws for the prefix
      refine ⟨fun k => if k = m' + 1 then j else rand' k, ?_, ?_⟩
      · intro k
        by_cases hk : k = m' + 1
        · subst hk
          have hb : (fun k => if k = m' + 1 then j else rand' k) (m' + 1) = j := by simp
          rw [hb]
          omega
        · have hb : (fun k' => if k' = m' + 1 then j else rand' k') k = rand' k := by
            simp [hk]
          rw [hb]
          exact hr' k
      · have hcount : l.length - 1 = m' + 1 := by omega
        rw [hcount, shuffleLoop, if_pos rfl]
        rw [shuffleLoop_congr _ rand' m'
          (listSwap l (m' + 1) j) (fun k hk => if_neg (by omega))]
        rw [show m' + 1 - 1 = m' from rfl] at heq'
        rw [hl2dec,
          shuffleLoop_append rand' hr' m' _ _ (by rw [hplen]; omega),
          heq', ← htdec]

/-- C9: for every endpoint list of size N with 1 ≤ N ≤ 100, `shuffleArray`
returns a permutation of its input — same length and same multiset,
whatever the random draws — and, the random index at step `i` ranging
uniformly over `0..i`, every permutation of the input is reachable by some
sequence of in-bound draws. -/
theorem shuffleArray_perm_and_reachable {α : Type*} (l : List α)
    (hN1 : 1 ≤ l.length) (hN2 : l.length ≤ 100) :
    (∀ rand : Nat → Nat, (shuffleArray rand l).Perm l ∧
       (shuffleArray rand l).length = l.length) ∧
    (∀ t : List α, t.Perm l →
       ∃ rand : Nat → Nat, (∀ k, rand k ≤ k) ∧ shuffleArray rand l = t) := by
  constructor
  · intro rand
    exact ⟨shuffleLoop_perm rand (l.length - 1) l,
      shuffleLoop_length rand (l.length - 1) l⟩
  · intro t ht
    exact shuffleLoop_reaches l.length l t rfl ht

/-- Witness for C9 on a concrete three-endpoint list. -/
theorem shuffleArray_perm_and_reachable_witness :
    (∀ rand : Nat → Nat,
       (shuffleArray rand ["amqp://a", "amqp://b", "amqp://c"]).Perm
           ["amqp://a", "amqp://b", "amqp://c"] ∧
       (shuffleArray rand ["amqp://a", "amqp://b", "amqp://c"]).length =
           (["amqp://a", "amqp://b", "amqp://c"] : List String).length) ∧
    (∀ t : List String, t.Perm ["amqp://a", "amqp://b", "amqp://c"] →
       ∃ rand : Nat → Nat, (∀ k, rand k ≤ k) ∧
         shuffleArray rand ["amqp://a", "amqp://b", "amqp://c"] = t) :=
  shuffleArray_perm_and_reachable ["amqp://a", "amqp://b", "amqp://c"]
    (by decide) (by decide)
